import Mathlib

/-!
Shallow embedding of the changes-feed reader of this repository.

The repository ships two variants of the `ChangesReader` class:

* `src/lib/changesreader.js` — the older variant: it supports a
  `maxChanges` ceiling (fields `maxChanges`, `numChanges`) and classifies a
  failed exchange as fatal when `err.statusCode && err.statusCode >= 400 &&
  err.statusCode !== 429` (no upper bound, no `continue` flag, no `stop()`).
  Embedded below with the suffix `A` (`SessionA`, `iterateA`, `runA`).

* `src/unnamed/part_000` — the newer variant: it has a `continue` flag,
  `stop()`, `get()` (bounded mode via `stopOnEmptyChanges`) and classifies a
  failed exchange as fatal when `err && err.statusCode && err.statusCode >=
  400 && err.statusCode !== 429 && err.statusCode < 500`.  Embedded below
  with the suffix `B` (`SessionB`, `iterateB`, `runB`).

The `async.doWhilst` driver of both variants is embedded as a run function
over a finite script of transport outcomes: each loop iteration issues one
HTTP request (recorded as the query-string object built by the source) and
consumes the next outcome of the script; the run records every request
issued and every event emitted, in order.  JavaScript truthiness tests of
the source (`if (opts.batchSize)`, `if (data.last_seq && ...)`,
`if (err.statusCode && ...)`) are translated explicitly: an absent field is
`none`, and an empty string or a zero number is falsy.
-/

namespace Cloudant

/-- One entry of the changes feed, shaped as consumed by the reader:
document id, revision tokens, optional body, optional deletion flag. -/
structure ChangeRecord where
  id : String
  changes : List String
  doc : Option String := none
  deleted : Option Bool := none
deriving DecidableEq, Repr

/-- Decoded response body of one `_changes` exchange: optional `results`
list, optional `last_seq`, optional `pending` hint.  `none` models an
absent field. -/
structure ChangesResponse where
  results : Option (List ChangeRecord) := none
  last_seq : Option String := none
  pending : Option Int := none
deriving DecidableEq, Repr

/-- A failed exchange as delivered to the request callback: optional
numeric status code (absent for network/parse-level failures), optional
server reason string. -/
structure Failure where
  statusCode : Option Nat := none
  reason : Option String := none
deriving DecidableEq, Repr

/-- Outcome of one transport exchange, i.e. the `(err, data)` pair the
request callback receives: either a decoded body with `err` falsy, or a
failure. -/
inductive Outcome where
  | success (data : ChangesResponse)
  | failure (err : Failure)
deriving DecidableEq, Repr

/-- The events emitted on the event emitter by the reader. -/
inductive Event where
  | change (c : ChangeRecord)
  | batch (b : List ChangeRecord)
  | seq (s : String)
  | error (e : Failure)
  | ended
deriving DecidableEq, Repr

/-- Boolean test for a `change` event. -/
def isChange : Event → Bool
  | .change _ => true
  | _ => false

/-- Boolean test for a `batch` event. -/
def isBatch : Event → Bool
  | .batch _ => true
  | _ => false

/-- Boolean test for a `seq` event. -/
def isSeq : Event → Bool
  | .seq _ => true
  | _ => false

/-- Boolean test for an `end` event. -/
def isEnded : Event → Bool
  | .ended => true
  | _ => false

/-- Number of `change` events in a list of events. -/
def countChange (evs : List Event) : Nat := evs.countP isChange

/-- Number of `seq` events in a list of events. -/
def countSeq (evs : List Event) : Nat := evs.countP isSeq

/-- Number of `end` events in a list of events. -/
def countEnded (evs : List Event) : Nat := evs.countP isEnded

/-- The query-string object both variants attach to each request:
`{feed: 'longpoll', timeout, since, limit, heartbeat, seq_interval,
include_docs}`.  `limit` is an integer because the older variant computes
it with JavaScript subtraction, which can go negative. -/
structure QueryString where
  feed : String
  timeout : Nat
  since : String
  limit : Int
  heartbeat : Nat
  seq_interval : Nat
  include_docs : Bool
deriving DecidableEq, Repr

/-- Shared translation of the per-response `change`/`batch` emission of both
variants: `if (data.results && data.results.length > 0)` emit one `change`
per record in order, then one `batch` with the whole list.  An array is
always truthy in JavaScript, so the guard is presence plus nonemptiness. -/
def changeEvents (d : ChangesResponse) : List Event :=
  match d.results with
  | some l => if 0 < l.length then l.map Event.change ++ [Event.batch l] else []
  | none => []

/-- Shared translation of the cursor update of both variants:
`if (data.last_seq && data.last_seq !== self.since) { self.since =
data.last_seq; self.ee.emit('seq', self.since); }`.  Returns the new value
of `since` and the emitted events.  An absent or empty `last_seq` is falsy
and leaves the cursor untouched. -/
def seqStep (since : String) (lastSeq : Option String) : String × List Event :=
  match lastSeq with
  | some v => if v != "" && v != since then (v, [Event.seq v]) else (since, [])
  | none => (since, [])

/-! ### Older variant (`src/lib/changesreader.js`), suffix `A` -/

/-- Mutable per-session state of the older variant, as set by
`setDefaults()` and mutated by `start()`. -/
structure SessionA where
  batchSize : Nat := 100
  since : String := "now"
  include_docs : Bool := false
  timeout : Nat := 60000
  heartbeat : Nat := 5000
  started : Bool := false
  maxChanges : Nat := 0
  numChanges : Nat := 0
deriving DecidableEq, Repr

/-- The page size computed at the top of each iteration of the older
variant: `var limit = self.batchSize; if (self.maxChanges) { limit =
Math.min(self.batchSize, self.maxChanges - self.numChanges); }`. -/
def limitA (s : SessionA) : Int :=
  if s.maxChanges ≠ 0 then
    min (s.batchSize : Int) ((s.maxChanges : Int) - (s.numChanges : Int))
  else (s.batchSize : Int)

/-- The query-string object of one request of the older variant. -/
def mkReqA (s : SessionA) : QueryString :=
  { feed := "longpoll", timeout := s.timeout, since := s.since,
    limit := limitA s, heartbeat := s.heartbeat,
    seq_interval := s.batchSize, include_docs := s.include_docs }

/-- What an iteration of the older variant does to the `async.doWhilst`
driver: `go` means `next()` was called and the continuation test returned
true, `halt` means the test returned false or `next` got a truthy error
(the loop ends and resets), `stall` means `next` was never called (the
callback returned without invoking it), so no further request ever
happens. -/
inductive DecisionA where
  | go
  | halt
  | stall
deriving DecidableEq, Repr

/-- Fatal-failure test of the older variant:
`err.statusCode && err.statusCode >= 400 && err.statusCode !== 429` —
note there is no `< 500` bound in this variant. -/
def isFatalA (err : Failure) : Bool :=
  match err.statusCode with
  | some c => c != 0 && decide (400 ≤ c) && c != 429
  | none => false

/-- Truthiness of the optional `err.reason` string passed to `next`. -/
def truthyReason (r : Option String) : Bool :=
  match r with
  | some v => v != ""
  | none => false

/-- Continuation test of the older variant's `doWhilst`:
`self.maxChanges === 0 || self.numChanges < self.maxChanges`. -/
def testA (s : SessionA) : Bool :=
  decide (s.maxChanges = 0 ∨ s.numChanges < s.maxChanges)

/-- One iteration of the older variant's loop body, after the request has
returned with the given outcome: the events emitted, the new state, and
what happens to the driver.  On success the change counter grows by the
result-list length, the cursor updates, and `next()` runs the continuation
test.  On a fatal failure `next(err.reason)` aborts the loop only when the
reason is truthy, otherwise the test runs as usual; on a transient failure
`next` is never called, so the loop stalls. -/
def iterateA (s : SessionA) : Outcome → List Event × SessionA × DecisionA
  | .success d =>
    let cEvs := changeEvents d
    let s1 : SessionA :=
      match d.results with
      | some l => if 0 < l.length then { s with numChanges := s.numChanges + l.length } else s
      | none => s
    let p := seqStep s1.since d.last_seq
    let s2 : SessionA := { s1 with since := p.1 }
    (cEvs ++ p.2, s2, if testA s2 then .go else .halt)
  | .failure err =>
    if isFatalA err then
      if truthyReason err.reason then ([Event.error err], s, .halt)
      else ([Event.error err], s, if testA s then .go else .halt)
    else ([Event.error err], s, .stall)

/-- Run of the older variant's loop over a finite script of outcomes: each
consumed outcome corresponds to one issued request (recorded from the state
at issue time); the run stops consuming when the driver halts or stalls.
Returns the requests issued and events emitted, in order. -/
def runA (s : SessionA) : List Outcome → List QueryString × List Event
  | [] => ([], [])
  | o :: rest =>
    let r := iterateA s o
    match r.2.2 with
    | .go => (mkReqA s :: (runA r.2.1 rest).1, r.1 ++ (runA r.2.1 rest).2)
    | _ => ([mkReqA s], r.1)

/-- The states at which the older variant issues its requests along a run
(one per consumed outcome). -/
def reqStatesA (s : SessionA) : List Outcome → List SessionA
  | [] => []
  | o :: rest =>
    match (iterateA s o).2.2 with
    | .go => s :: reqStatesA (iterateA s o).2.1 rest
    | _ => [s]

/-- A server that honours the requested page size: every successful
response in the script carries at most `limit`-many results, where `limit`
is the page size of the request it answers. -/
def okRespA (s : SessionA) : Outcome → Bool
  | .success d =>
    match d.results with
    | some l => decide ((l.length : Int) ≤ limitA s)
    | none => true
  | .failure _ => true

/-- The whole script honours the page sizes along the run from `s`. -/
def compliantA (s : SessionA) : List Outcome → Bool
  | [] => true
  | o :: rest => okRespA s o && compliantA (iterateA s o).2.1 rest

/-! ### Newer variant (`src/unnamed/part_000`), suffix `B` -/

/-- Mutable per-session state of the newer variant, as set by
`setDefaults()`.  The source field `continue` is a Lean keyword and is
embedded as `cont`. -/
structure SessionB where
  batchSize : Nat := 100
  since : String := "now"
  include_docs : Bool := false
  timeout : Nat := 60000
  heartbeat : Nat := 5000
  started : Bool := false
  stopOnEmptyChanges : Bool := false
  cont : Bool := true
deriving DecidableEq, Repr

/-- The fresh state `setDefaults()` produces. -/
def defaultB : SessionB := {}

/-- The `stop()` method: `this.continue = false`. -/
def stopB (s : SessionB) : SessionB := { s with cont := false }

/-- Typed options accepted by the newer variant's `start(opts)`: it reads
only `opts.batchSize` and `opts.since`. -/
structure OptsB where
  batchSize : Option Nat := none
  since : Option String := none
deriving DecidableEq, Repr

/-- State after the newer variant's `start(opts)` has applied its
overrides: if already started nothing changes; otherwise `started` is set
and each truthy option replaces the default (`0` and `""` are falsy and are
ignored). -/
def startStateB (s : SessionB) (o : OptsB) : SessionB :=
  if s.started then s
  else
    { s with
      started := true,
      batchSize := match o.batchSize with
        | some b => if b ≠ 0 then b else s.batchSize
        | none => s.batchSize,
      since := match o.since with
        | some v => if v ≠ "" then v else s.since
        | none => s.since }

/-- State after the newer variant's `get(opts)`:
`this.stopOnEmptyChanges = true; return this.start(opts);`. -/
def getStateB (s : SessionB) (o : OptsB) : SessionB :=
  startStateB { s with stopOnEmptyChanges := true } o

/-- The query-string object of one request of the newer variant (its
`limit` is always the configured batch size). -/
def mkReqB (s : SessionB) : QueryString :=
  { feed := "longpoll", timeout := s.timeout, since := s.since,
    limit := (s.batchSize : Int), heartbeat := s.heartbeat,
    seq_interval := s.batchSize, include_docs := s.include_docs }

/-- Fatal-failure test of the newer variant: `err && err.statusCode &&
err.statusCode >= 400 && err.statusCode !== 429 && err.statusCode < 500`. -/
def isFatalB (err : Failure) : Bool :=
  match err.statusCode with
  | some c => c != 0 && decide (400 ≤ c) && c != 429 && decide (c < 500)
  | none => false

/-- The bounded-mode check of the newer variant: `self.stopOnEmptyChanges
&& typeof data.results !== 'undefined' && data.results.length <
self.batchSize`.  It reads only `stopOnEmptyChanges` and `batchSize`,
which the preceding cursor update never touches. -/
def smallB (s : SessionB) (d : ChangesResponse) : Bool :=
  match d.results with
  | some l => s.stopOnEmptyChanges && decide (l.length < s.batchSize)
  | none => false

/-- One iteration of the newer variant's loop body, after the request has
returned with the given outcome: the events emitted, the new state, and
whether the driver's continuation test (`return self.continue`) lets the
loop poll again.  On success: change/batch events, cursor update, then the
bounded-mode check emits `end` and clears the continue flag; `next()` is
always reached.  On failure: one `error` event; a fatal failure clears the
continue flag and ends the loop, a transient one calls `next()` with the
state untouched. -/
def iterateB (s : SessionB) : Outcome → List Event × SessionB × Bool
  | .success d =>
    let cEvs := changeEvents d
    let p := seqStep s.since d.last_seq
    let s1 : SessionB := { s with since := p.1 }
    let small : Bool := smallB s d
    let s2 : SessionB := if small then { s1 with cont := false } else s1
    let eEvs : List Event := if small then [Event.ended] else []
    (cEvs ++ p.2 ++ eEvs, s2, s2.cont)
  | .failure err =>
    if isFatalB err then ([Event.error err], { s with cont := false }, false)
    else ([Event.error err], s, s.cont)

/-- Run of the newer variant's loop over a finite script of outcomes: each
consumed outcome corresponds to one issued request; the run stops consuming
when the continuation test fails (the source then resets the session via
`setDefaults()`).  Returns the requests issued and events emitted, in
order. -/
def runB (s : SessionB) : List Outcome → List QueryString × List Event
  | [] => ([], [])
  | o :: rest =>
    let r := iterateB s o
    if r.2.2 then (mkReqB s :: (runB r.2.1 rest).1, r.1 ++ (runB r.2.1 rest).2)
    else ([mkReqB s], r.1)

/-! ### Untyped option handling (`start(opts)` of both variants) -/

/-- A JavaScript value as far as the option-override code observes it:
string, number or boolean. -/
inductive JVal where
  | vstr (s : String)
  | vnum (n : Int)
  | vbool (b : Bool)
deriving DecidableEq, Repr

/-- JavaScript truthiness on such a value. -/
def truthyV : JVal → Bool
  | .vstr s => s != ""
  | .vnum n => n != 0
  | .vbool b => b

/-- The untyped `opts` object passed to `start(opts)`, covering the fields
the older variant reads (`batchSize`, `since`, `include_docs`,
`maxChanges`); the newer variant reads the first two. -/
structure Opts where
  batchSize : Option JVal := none
  since : Option JVal := none
  include_docs : Option JVal := none
  maxChanges : Option JVal := none
deriving DecidableEq, Repr

/-- One override line of `start`: `if (opts.x) { self.x = opts.x; }` —
a truthy value of any type replaces the current one, a falsy or absent
value is ignored. -/
def applyOverride (cur : JVal) (o : Option JVal) : JVal :=
  match o with
  | some v => if truthyV v then v else cur
  | none => cur

/-- The option-bearing fields of the session as the override code sees
them, with the defaults of `setDefaults()`. -/
structure RawConfig where
  batchSize : JVal := .vnum 100
  since : JVal := .vstr "now"
  include_docs : JVal := .vbool false
  maxChanges : JVal := .vnum 0
  started : Bool := false
deriving DecidableEq, Repr

/-- The synchronous front half of `start(opts)`: if already started return
unchanged, otherwise mark started and apply the truthy overrides.  The
source performs no type validation and can raise no error: this function is
total and never rejects an argument. -/
def startRaw (c : RawConfig) (o : Opts) : RawConfig :=
  if c.started then c
  else
    { batchSize := applyOverride c.batchSize o.batchSize,
      since := applyOverride c.since o.since,
      include_docs := applyOverride c.include_docs o.include_docs,
      maxChanges := applyOverride c.maxChanges o.maxChanges,
      started := true }

/-- A response with no results and a fresh sequence token, as in the
repository's own tests. -/
def emptyPoll : Outcome :=
  .success { results := some [], last_seq := some "1-0", pending := some 0 }

/-! ### Helper lemmas -/

/-- A run on a nonempty script always issues at least the request built
from the starting state. -/
lemma runB_requests_cons (s : SessionB) (o : Outcome) (rest : List Outcome) :
    ∃ t, (runB s (o :: rest)).1 = mkReqB s :: t := by
  simp only [runB]
  split
  · exact ⟨_, rfl⟩
  · exact ⟨[], rfl⟩

/-- Unfolding of one run step when the continuation test passes. -/
lemma runB_cons_go (s : SessionB) (o : Outcome) (rest : List Outcome)
    (h : (iterateB s o).2.2 = true) :
    runB s (o :: rest) =
      (mkReqB s :: (runB (iterateB s o).2.1 rest).1,
       (iterateB s o).1 ++ (runB (iterateB s o).2.1 rest).2) := by
  simp only [runB, h, if_true]

/-- Unfolding of one run step when the continuation test fails. -/
lemma runB_cons_halt (s : SessionB) (o : Outcome) (rest : List Outcome)
    (h : (iterateB s o).2.2 = false) :
    runB s (o :: rest) = ([mkReqB s], (iterateB s o).1) := by
  simp only [runB, h]
  rfl

/-- Characterisation of the newer variant's fatal test: it holds exactly
for a numeric status code in `[400, 500)` other than `429`. -/
lemma isFatalB_iff (err : Failure) :
    isFatalB err = true ↔
      ∃ c, err.statusCode = some c ∧ 400 ≤ c ∧ c < 500 ∧ c ≠ 429 := by
  cases h : err.statusCode with
  | none => simp [isFatalB, h]
  | some c =>
    simp only [isFatalB, h, Bool.and_eq_true, bne_iff_ne, decide_eq_true_eq,
      Option.some.injEq]
    constructor
    · rintro ⟨⟨⟨h0, h4⟩, h9⟩, h5⟩
      exact ⟨c, rfl, h4, h5, h9⟩
    · rintro ⟨c', hc', h4, h5, h9⟩
      cases hc'
      exact ⟨⟨⟨by omega, h4⟩, h9⟩, h5⟩

/-- On a non-fatal failure the newer variant emits the error, leaves the
state untouched and keeps the continuation flag. -/
lemma iterateB_transient (s : SessionB) (err : Failure) (hf : isFatalB err = false) :
    iterateB s (.failure err) = ([Event.error err], s, s.cont) := by
  simp [iterateB, hf]

/-- On a fatal failure the newer variant emits the error, clears the
continue flag and ends the loop. -/
lemma iterateB_fatal (s : SessionB) (err : Failure) (hf : isFatalB err = true) :
    iterateB s (.failure err) = ([Event.error err], { s with cont := false }, false) := by
  simp [iterateB, hf]

/-- Event list of a successful iteration of the newer variant: change and
batch events, then the cursor event, then the bounded-mode end event. -/
lemma iterateB_success_events (s : SessionB) (d : ChangesResponse) :
    (iterateB s (.success d)).1 =
      changeEvents d ++ (seqStep s.since d.last_seq).2 ++
        (if smallB s d then [Event.ended] else []) := rfl

/-- Cursor of the state left by a successful iteration of the newer
variant. -/
lemma iterateB_success_since (s : SessionB) (d : ChangesResponse) :
    (iterateB s (.success d)).2.1.since = (seqStep s.since d.last_seq).1 := by
  cases h : smallB s d <;> simp [iterateB, h]

/-- Continuation decision of a successful iteration of the newer
variant. -/
lemma iterateB_success_decision (s : SessionB) (d : ChangesResponse) :
    (iterateB s (.success d)).2.2 = if smallB s d then false else s.cont := by
  cases h : smallB s d <;> simp [iterateB, h]

/-- The cursor update either leaves the event list empty or emits exactly
one `seq` event. -/
lemma seqStep_snd_cases (since : String) (lastSeq : Option String) :
    (seqStep since lastSeq).2 = [] ∨ ∃ v, (seqStep since lastSeq).2 = [Event.seq v] := by
  cases lastSeq with
  | none => exact Or.inl rfl
  | some v =>
    simp only [seqStep]
    split
    · exact Or.inr ⟨v, rfl⟩
    · exact Or.inl rfl

/-- The cursor update on a fresh, truthy `last_seq` emits the single `seq`
event and moves the cursor. -/
lemma seqStep_of_ne (since v : String) (h1 : v ≠ "") (h2 : v ≠ since) :
    seqStep since (some v) = (v, [Event.seq v]) := by
  simp [seqStep, h1, h2]

/-- The cursor update on an unchanged `last_seq` does nothing. -/
lemma seqStep_self (since : String) : seqStep since (some since) = (since, []) := by
  simp [seqStep]

/-- Change and batch events carry no `seq` event. -/
lemma countSeq_changeEvents (d : ChangesResponse) : countSeq (changeEvents d) = 0 := by
  rcases hres : d.results with _ | l
  · simp [countSeq, changeEvents, hres]
  · simp only [countSeq, changeEvents, hres]
    split
    · rw [List.countP_append, List.countP_map]
      simp [isSeq, Function.comp]
    · rfl

/-- Change and batch events carry no `end` event. -/
lemma countEnded_changeEvents (d : ChangesResponse) : countEnded (changeEvents d) = 0 := by
  rcases hres : d.results with _ | l
  · simp [countEnded, changeEvents, hres]
  · simp only [countEnded, changeEvents, hres]
    split
    · rw [List.countP_append, List.countP_map]
      simp [isEnded, Function.comp]
    · rfl

/-- The cursor update carries no `end` event. -/
lemma countEnded_seqStep (since : String) (lastSeq : Option String) :
    countEnded (seqStep since lastSeq).2 = 0 := by
  rcases seqStep_snd_cases since lastSeq with h | ⟨v, h⟩ <;>
    simp [h, countEnded, isEnded]

/-! ### Claims -/

/-- C1: for every failed exchange whose failure is transient (status 429,
status at least 500, or no status code), the loop issues a subsequent
request whose `since` query parameter equals the `since` value of the
failed request — the position is unchanged and polling continues. -/
theorem transient_failure_retries_same_since
    (s : SessionB) (err : Failure) (o₂ : Outcome) (rest : List Outcome)
    (hc : s.cont = true)
    (ht : err.statusCode = none ∨ err.statusCode = some 429 ∨
          ∃ c, err.statusCode = some c ∧ 500 ≤ c) :
    (runB s (.failure err :: o₂ :: rest)).1.take 2 =
      [mkReqB s, mkReqB (iterateB s (.failure err)).2.1] ∧
    (mkReqB (iterateB s (.failure err)).2.1).since = s.since := by
  have hf : isFatalB err = false := by
    rcases ht with h | h | ⟨c, hc', h5⟩
    · simp [isFatalB, h]
    · simp [isFatalB, h]
    · simp only [isFatalB, hc', Bool.and_eq_true, decide_eq_true_eq]
      simp only [Bool.and_eq_false_iff, decide_eq_false_iff_not]
      omega
  have hit := iterateB_transient s err hf
  have hgo : (iterateB s (.failure err)).2.2 = true := by rw [hit]; exact hc
  obtain ⟨t, htl⟩ := runB_requests_cons s o₂ rest
  constructor
  · rw [runB_cons_go s (.failure err) (o₂ :: rest) hgo, hit]
    show List.take 2 (mkReqB s :: (runB s (o₂ :: rest)).1) = [mkReqB s, mkReqB s]
    rw [htl]
    rfl
  · rw [hit]
    rfl

/-- Witness for C1 at a concrete input: a 502 failure from the
freshly-started default session is retried with `since` still `"now"`. -/
theorem transient_failure_retries_same_since_witness :
    ((startStateB defaultB {}).cont = true ∧
      (∃ c, (Failure.mk (some 502) none).statusCode = some c ∧ 500 ≤ c)) ∧
    ((runB (startStateB defaultB {})
        (.failure (Failure.mk (some 502) none) :: emptyPoll :: [])).1.take 2 =
      [mkReqB (startStateB defaultB {}),
       mkReqB (iterateB (startStateB defaultB {})
         (.failure (Failure.mk (some 502) none))).2.1] ∧
     (mkReqB (iterateB (startStateB defaultB {})
         (.failure (Failure.mk (some 502) none))).2.1).since =
       (startStateB defaultB {}).since) :=
  ⟨⟨rfl, ⟨502, rfl, by omega⟩⟩,
    transient_failure_retries_same_since (startStateB defaultB {})
      (Failure.mk (some 502) none) emptyPoll [] rfl
      (Or.inr (Or.inr ⟨502, rfl, by omega⟩))⟩

/-- C2: for every failed exchange, the loop halts (emits the error event
and issues no further requests) if and only if the failure carries a
numeric status code in `[400, 500)` other than 429; a failure with status
429, any status at least 500, or no status code leaves the loop
continuing. -/
theorem fatal_iff_halt
    (s : SessionB) (err : Failure) (o₂ : Outcome) (rest : List Outcome)
    (hc : s.cont = true) :
    ((runB s (.failure err :: o₂ :: rest)).1.length = 1 ↔
      ∃ c, err.statusCode = some c ∧ 400 ≤ c ∧ c < 500 ∧ c ≠ 429) ∧
    Event.error err ∈ (runB s (.failure err :: o₂ :: rest)).2 := by
  cases hf : isFatalB err with
  | true =>
    have hit := iterateB_fatal s err hf
    have hhalt : (iterateB s (.failure err)).2.2 = false := by rw [hit]
    rw [runB_cons_halt s (.failure err) (o₂ :: rest) hhalt, hit]
    exact ⟨⟨fun _ => (isFatalB_iff err).mp hf, fun _ => rfl⟩, by simp⟩
  | false =>
    have hit := iterateB_transient s err hf
    have hgo : (iterateB s (.failure err)).2.2 = true := by rw [hit]; exact hc
    obtain ⟨t, htl⟩ := runB_requests_cons s o₂ rest
    rw [runB_cons_go s (.failure err) (o₂ :: rest) hgo, hit]
    constructor
    · constructor
      · intro hlen
        exfalso
        have hlen' : (mkReqB s :: (runB s (o₂ :: rest)).1).length = 1 := hlen
        rw [htl] at hlen'
        simp at hlen'
      · intro hex
        exact absurd ((isFatalB_iff err).mpr hex) (by simp [hf])
    · show Event.error err ∈ [Event.error err] ++ (runB s (o₂ :: rest)).2
      simp

/-- Witness for C2 at a concrete input: a 401 failure from the
freshly-started default session halts the loop after exactly one request
and the error event is emitted. -/
theorem fatal_iff_halt_witness :
    (startStateB defaultB {}).cont = true ∧
    ((runB (startStateB defaultB {})
        (.failure (Failure.mk (some 401) (some "unauthorized")) ::
          emptyPoll :: [])).1.length = 1 ↔
      ∃ c, (Failure.mk (some 401) (some "unauthorized")).statusCode = some c ∧
        400 ≤ c ∧ c < 500 ∧ c ≠ 429) ∧
    Event.error (Failure.mk (some 401) (some "unauthorized")) ∈
      (runB (startStateB defaultB {})
        (.failure (Failure.mk (some 401) (some "unauthorized")) ::
          emptyPoll :: [])).2 :=
  ⟨rfl,
    (fatal_iff_halt (startStateB defaultB {})
      (Failure.mk (some 401) (some "unauthorized")) emptyPoll [] rfl).1,
    (fatal_iff_halt (startStateB defaultB {})
      (Failure.mk (some 401) (some "unauthorized")) emptyPoll [] rfl).2⟩

/-- C3 counterexample: calling `stop()` before `start()` is not a no-op.
`stop()` clears the `continue` flag and `start()` never restores it, so
against a server answering two empty polls the stopped-then-started reader
issues exactly one request while the plainly-started reader issues two —
the loop does not keep polling as if `stop()` had never been called. -/
theorem stop_before_start_not_noop :
    (runB (startStateB (stopB defaultB) {}) [emptyPoll, emptyPoll]).1.length = 1 ∧
    (runB (startStateB defaultB {}) [emptyPoll, emptyPoll]).1.length = 2 := by
  decide

/-- Helper: once the continue flag is down, no iteration raises it, so the
continuation test fails whatever the outcome. -/
lemma iterateB_not_cont (s : SessionB) (o : Outcome) (h : s.cont = false) :
    (iterateB s o).2.2 = false := by
  cases o with
  | success d =>
    simp only [iterateB]
    split
    · rfl
    · exact h
  | failure err =>
    simp only [iterateB]
    split
    · rfl
    · exact h

/-- C3 amended: calling `stop()` before `start()` is honored at the first
continuation check — the subsequent `start()` issues exactly one request,
whatever the server answers, and then halts (and resets), instead of
polling indefinitely. -/
theorem stop_before_start_single_poll (o : Outcome) (rest : List Outcome) :
    (runB (startStateB (stopB defaultB) {}) (o :: rest)).1.length = 1 := by
  have h : (iterateB (startStateB (stopB defaultB) {}) o).2.2 = false :=
    iterateB_not_cont _ o rfl
  rw [runB_cons_halt _ o rest h]
  rfl

/-- C4 counterexample: passing an option of an invalid type does not fail.
`start` performs no type validation — with the non-numeric `batchSize`
string `"wibble"` the session starts anyway (`started = true`) and the
invalid value is installed verbatim; no configuration error exists
anywhere in the option handling (`startRaw` is total). -/
theorem invalid_option_accepted :
    (startRaw {} { batchSize := some (.vstr "wibble") }).started = true ∧
    (startRaw {} { batchSize := some (.vstr "wibble") }).batchSize = .vstr "wibble" := by
  decide

/-- C4 amended: options are not type-checked and no configuration error is
ever raised — `start` always starts the loop; an omitted field keeps its
default and a truthy value of any type, valid or not, is installed
verbatim. -/
theorem options_not_validated (o : Opts) :
    (startRaw {} o).started = true ∧
    (o.batchSize = none → (startRaw {} o).batchSize = .vnum 100) ∧
    (∀ v, o.batchSize = some v → truthyV v = true → (startRaw {} o).batchSize = v) := by
  refine ⟨rfl, ?_, ?_⟩
  · intro h
    simp [startRaw, applyOverride, h]
  · intro v hv htr
    simp [startRaw, applyOverride, hv, htr]

/-- Witness for C4's amended claim at a concrete input: the invalid truthy
`batchSize` string `"wibble"` starts the loop and is installed verbatim. -/
theorem options_not_validated_witness :
    truthyV (.vstr "wibble") = true ∧
    (startRaw {} { batchSize := some (JVal.vstr "wibble") }).started = true ∧
    (startRaw {} { batchSize := some (JVal.vstr "wibble") }).batchSize = .vstr "wibble" :=
  ⟨by decide, (options_not_validated _).1,
    (options_not_validated { batchSize := some (JVal.vstr "wibble") }).2.2 _ rfl (by decide)⟩

/-- An `opts` object whose every field carries the falsy value of its
expected type: `batchSize` 0, `since` 0, `include_docs` false,
`maxChanges` 0. -/
def falsyOpts : Opts :=
  { batchSize := some (.vnum 0),
    since := some (.vnum 0),
    include_docs := some (.vbool false),
    maxChanges := some (.vnum 0) }

/-- C10: every falsy option value (`batchSize` 0, `since` 0 or the empty
string, `include_docs` false, `maxChanges` 0) is silently ignored and the
default kept; in particular the number 0 as `since` leaves the cursor at
`"now"` rather than the beginning of the log. -/
theorem falsy_options_ignored :
    (∀ (cur : JVal) (v : JVal), truthyV v = false → applyOverride cur (some v) = cur) ∧
    ((startRaw {} falsyOpts).batchSize = .vnum 100 ∧
     (startRaw {} falsyOpts).since = .vstr "now" ∧
     (startRaw {} falsyOpts).include_docs = .vbool false ∧
     (startRaw {} falsyOpts).maxChanges = .vnum 0 ∧
     (startRaw {} falsyOpts).started = true) := by
  constructor
  · intro cur v hv
    simp [applyOverride, hv]
  · decide

/-- Witness for C10 at a concrete input: the falsy number 0 does not
override the default `since` value `"now"`. -/
theorem falsy_options_ignored_witness :
    truthyV (.vnum 0) = false ∧ applyOverride (.vstr "now") (some (.vnum 0)) = .vstr "now" :=
  ⟨by decide, falsy_options_ignored.1 (.vstr "now") (.vnum 0) (by decide)⟩

/-- C5: for every successful exchange whose result list is non-empty with
length k, exactly k `change` events are emitted, one per record in server
order, then exactly one `batch` event carrying the full ordered list, and
whatever follows within the same exchange (the `seq` event when the
position changed, the bounded-mode `end` event) contains no further
`change` or `batch` event — so change events precede the batch event,
which precedes the seq event of the same exchange. -/
theorem nonempty_batch_event_order (s : SessionB) (d : ChangesResponse)
    (l : List ChangeRecord) (hr : d.results = some l) (hne : l ≠ []) :
    ∃ rest, (iterateB s (.success d)).1 = l.map Event.change ++ Event.batch l :: rest ∧
      ∀ e ∈ rest, isChange e = false ∧ isBatch e = false := by
  have hlen : 0 < l.length := List.length_pos.mpr hne
  have hce : changeEvents d = l.map Event.change ++ [Event.batch l] := by
    simp [changeEvents, hr, hlen]
  refine ⟨(seqStep s.since d.last_seq).2 ++ (if smallB s d then [Event.ended] else []),
    ?_, ?_⟩
  · rw [iterateB_success_events, hce]
    simp [List.append_assoc]
  · intro e he
    rcases List.mem_append.mp he with h1 | h2
    · rcases seqStep_snd_cases s.since d.last_seq with hs | ⟨v, hs⟩
      · rw [hs] at h1
        cases h1
      · rw [hs] at h1
        simp only [List.mem_singleton] at h1
        subst h1
        exact ⟨rfl, rfl⟩
    · cases hsm : smallB s d
      · rw [hsm, if_neg (by simp)] at h2
        cases h2
      · rw [hsm, if_pos rfl] at h2
        simp only [List.mem_singleton] at h2
        subst h2
        exact ⟨rfl, rfl⟩

/-- A two-record batch, as in the repository's own tests. -/
def twoChanges : List ChangeRecord :=
  [{ id := "1", changes := ["1-1"] }, { id := "2", changes := ["1-1"] }]

/-- Witness for C5 at a concrete input: a response with two records yields
the two change events in order, then the batch event, then only non-change,
non-batch events. -/
theorem nonempty_batch_event_order_witness :
    ({ results := some twoChanges, last_seq := some "2-0" : ChangesResponse }.results
      = some twoChanges ∧ twoChanges ≠ []) ∧
    ∃ rest, (iterateB (startStateB defaultB {})
        (.success { results := some twoChanges, last_seq := some "2-0" })).1 =
      twoChanges.map Event.change ++ Event.batch twoChanges :: rest ∧
      ∀ e ∈ rest, isChange e = false ∧ isBatch e = false :=
  ⟨⟨rfl, by decide⟩,
    nonempty_batch_event_order (startStateB defaultB {})
      { results := some twoChanges, last_seq := some "2-0" } twoChanges rfl (by decide)⟩

/-- C6 counterexample: the guard `data.last_seq && data.last_seq !==
self.since` tests JavaScript truthiness first, so a response whose
`last_seq` is the empty string — a value different from the pre-request
position `"now"` — emits no `seq` event at all and leaves the next
request's `since` at `"now"`, where the claim demands exactly one `seq`
event carrying the new value. -/
theorem empty_last_seq_no_seq_event :
    "" ≠ (startStateB defaultB {}).since ∧
    countSeq (iterateB (startStateB defaultB {})
      (.success { results := some [], last_seq := some "" })).1 = 0 ∧
    (mkReqB (iterateB (startStateB defaultB {})
      (.success { results := some [], last_seq := some "" })).2.1).since = "now" := by
  decide

/-- C6 amended: for every successful exchange whose response carries a
truthy (present and non-empty) `last_seq` differing from the pre-request
position, exactly one `seq` event is emitted carrying the new value — even
when the result list is empty — the session's cursor moves to that value,
and the `since` query parameter of the next request built from the
resulting state equals that value; when `last_seq` equals the current
position, no `seq` event is emitted. -/
theorem seq_event_on_truthy_last_seq (s : SessionB) (d : ChangesResponse) (v : String) :
    (d.last_seq = some v → v ≠ "" → v ≠ s.since →
      countSeq (iterateB s (.success d)).1 = 1 ∧
      Event.seq v ∈ (iterateB s (.success d)).1 ∧
      (iterateB s (.success d)).2.1.since = v ∧
      (mkReqB (iterateB s (.success d)).2.1).since = v) ∧
    (d.last_seq = some s.since → countSeq (iterateB s (.success d)).1 = 0) := by
  constructor
  · intro h1 h2 h3
    have hss : seqStep s.since d.last_seq = (v, [Event.seq v]) := by
      rw [h1]
      exact seqStep_of_ne s.since v h2 h3
    have hsince : (iterateB s (.success d)).2.1.since = v := by
      rw [iterateB_success_since, hss]
    refine ⟨?_, ?_, hsince, ?_⟩
    · rw [iterateB_success_events, hss]
      simp only [countSeq, List.countP_append]
      have h0 := countSeq_changeEvents d
      unfold countSeq at h0
      rw [h0]
      cases hsm : smallB s d <;> simp [isSeq]
    · rw [iterateB_success_events, hss]
      simp
    · show (iterateB s (.success d)).2.1.since = v
      exact hsince
  · intro h
    have hss : seqStep s.since d.last_seq = (s.since, []) := by
      rw [h]
      exact seqStep_self s.since
    rw [iterateB_success_events, hss]
    simp only [countSeq, List.countP_append]
    have h0 := countSeq_changeEvents d
    unfold countSeq at h0
    rw [h0]
    cases hsm : smallB s d <;> simp [isSeq]

/-- Witness for C6's amended claim at a concrete input: an empty poll
answering `last_seq = "5-x"` from position `"now"` emits exactly one
`seq "5-x"` event and the next request carries `since = "5-x"`. -/
theorem seq_event_on_truthy_last_seq_witness :
    countSeq (iterateB (startStateB defaultB {})
      (.success { results := some [], last_seq := some "5-x" })).1 = 1 ∧
    (mkReqB (iterateB (startStateB defaultB {})
      (.success { results := some [], last_seq := some "5-x" })).2.1).since = "5-x" :=
  ⟨((seq_event_on_truthy_last_seq (startStateB defaultB {})
      { results := some [], last_seq := some "5-x" } "5-x").1
      rfl (by decide) (by decide)).1,
   ((seq_event_on_truthy_last_seq (startStateB defaultB {})
      { results := some [], last_seq := some "5-x" } "5-x").1
      rfl (by decide) (by decide)).2.2.2⟩

/-- Helper: a successful iteration emits exactly one `end` event when the
bounded-mode check fires, and none otherwise. -/
lemma countEnded_iterateB_success (s : SessionB) (d : ChangesResponse) :
    countEnded (iterateB s (.success d)).1 = if smallB s d then 1 else 0 := by
  rw [iterateB_success_events]
  simp only [countEnded, List.countP_append]
  have h1 := countEnded_changeEvents d
  have h2 := countEnded_seqStep s.since d.last_seq
  unfold countEnded at h1 h2
  rw [h1, h2]
  cases hsm : smallB s d <;> simp [isEnded]

/-- C8: in bounded (drain/get) mode, a successful response whose result
list is strictly shorter than the requested limit (the batch size) makes
the loop emit exactly one `end` event and issue no further request, while
a result list whose length equals the limit emits no `end` event and does
not stop the loop. -/
theorem bounded_end_on_short_batch (s : SessionB) (d : ChangesResponse)
    (l : List ChangeRecord) (o₂ : Outcome) (rest : List Outcome)
    (hget : s.stopOnEmptyChanges = true) (hc : s.cont = true)
    (hr : d.results = some l) :
    (l.length < s.batchSize →
       countEnded (runB s (.success d :: o₂ :: rest)).2 = 1 ∧
       (runB s (.success d :: o₂ :: rest)).1.length = 1) ∧
    (l.length = s.batchSize →
       countEnded (iterateB s (.success d)).1 = 0 ∧
       2 ≤ (runB s (.success d :: o₂ :: rest)).1.length) := by
  constructor
  · intro hlt
    have hsm : smallB s d = true := by simp [smallB, hr, hget, hlt]
    have hdec : (iterateB s (.success d)).2.2 = false := by
      rw [iterateB_success_decision, hsm]
      rfl
    rw [runB_cons_halt _ _ _ hdec]
    exact ⟨by rw [countEnded_iterateB_success, hsm]; rfl, rfl⟩
  · intro heq
    have hsm : smallB s d = false := by simp [smallB, hr, heq]
    constructor
    · rw [countEnded_iterateB_success, hsm]
      rfl
    · have hdec : (iterateB s (.success d)).2.2 = true := by
        rw [iterateB_success_decision, hsm]
        exact hc
      rw [runB_cons_go _ _ _ hdec]
      obtain ⟨t, htl⟩ := runB_requests_cons (iterateB s (.success d)).2.1 o₂ rest
      show 2 ≤ (mkReqB s :: (runB (iterateB s (.success d)).2.1 (o₂ :: rest)).1).length
      rw [htl]
      simp

/-- Witness for C8 at a concrete input: in get mode an empty result list
(shorter than the batch size 100) triggers exactly one `end` event and the
run stops after its single request. -/
theorem bounded_end_on_short_batch_witness :
    ((getStateB defaultB {}).stopOnEmptyChanges = true ∧
     (getStateB defaultB {}).cont = true ∧
     List.length ([] : List ChangeRecord) < (getStateB defaultB {}).batchSize) ∧
    (countEnded (runB (getStateB defaultB {}) [emptyPoll, emptyPoll]).2 = 1 ∧
     (runB (getStateB defaultB {}) [emptyPoll, emptyPoll]).1.length = 1) :=
  ⟨⟨rfl, rfl, by decide⟩,
    (bounded_end_on_short_batch (getStateB defaultB {})
      { results := some [], last_seq := some "1-0", pending := some 0 }
      [] emptyPoll [] rfl rfl rfl).1 (by decide)⟩

/-- C9: in bounded (get) mode, a successful response that lacks a
`results` field entirely emits no `end` event and polling continues, even
though such a response delivers zero changes — the end-of-feed check fires
only when `results` is present and shorter than the batch size. -/
theorem missing_results_keeps_polling (s : SessionB) (d : ChangesResponse)
    (o₂ : Outcome) (rest : List Outcome)
    (_hget : s.stopOnEmptyChanges = true) (hc : s.cont = true)
    (hr : d.results = none) :
    countEnded (iterateB s (.success d)).1 = 0 ∧
    2 ≤ (runB s (.success d :: o₂ :: rest)).1.length := by
  have hsm : smallB s d = false := by simp [smallB, hr]
  constructor
  · rw [countEnded_iterateB_success, hsm]
    rfl
  · have hdec : (iterateB s (.success d)).2.2 = true := by
      rw [iterateB_success_decision, hsm]
      exact hc
    rw [runB_cons_go _ _ _ hdec]
    obtain ⟨t, htl⟩ := runB_requests_cons (iterateB s (.success d)).2.1 o₂ rest
    show 2 ≤ (mkReqB s :: (runB (iterateB s (.success d)).2.1 (o₂ :: rest)).1).length
    rw [htl]
    simp

/-- Witness for C9 at a concrete input: in get mode a response with no
`results` field emits no `end` event and a second request is issued. -/
theorem missing_results_keeps_polling_witness :
    ((getStateB defaultB {}).stopOnEmptyChanges = true ∧
     (getStateB defaultB {}).cont = true ∧
     ({ results := none, last_seq := some "9-z" : ChangesResponse }).results = none) ∧
    (countEnded (iterateB (getStateB defaultB {})
       (.success { results := none, last_seq := some "9-z" })).1 = 0 ∧
     2 ≤ (runB (getStateB defaultB {})
       (.success { results := none, last_seq := some "9-z" } ::
         emptyPoll :: [])).1.length) :=
  ⟨⟨rfl, rfl, rfl⟩,
    missing_results_keeps_polling (getStateB defaultB {})
      { results := none, last_seq := some "9-z" } emptyPoll [] rfl rfl rfl⟩

/-! ### Lemmas on the older variant, towards the ceiling invariant -/

/-- Number of records a successful response delivers (zero when the
`results` field is absent). -/
def resLen (d : ChangesResponse) : Nat :=
  match d.results with
  | some l => l.length
  | none => 0

/-- Counting change events distributes over concatenation. -/
lemma countChange_append (a b : List Event) :
    countChange (a ++ b) = countChange a + countChange b :=
  List.countP_append isChange a b

/-- Change and batch events of one response hold exactly as many `change`
events as the response has records. -/
lemma countChange_changeEvents (d : ChangesResponse) :
    countChange (changeEvents d) = resLen d := by
  rcases hres : d.results with _ | l
  · simp [countChange, changeEvents, resLen, hres]
  · simp only [countChange, changeEvents, resLen, hres]
    split
    · rw [List.countP_append, List.countP_map]
      simp [isChange, Function.comp]
    · simp
      omega

/-- The cursor update emits no `change` event. -/
lemma countChange_seqStep (since : String) (lastSeq : Option String) :
    countChange (seqStep since lastSeq).2 = 0 := by
  rcases seqStep_snd_cases since lastSeq with h | ⟨v, h⟩ <;>
    simp [h, countChange, isChange]

/-- Session fields after a successful iteration of the older variant: the
change counter grows by the record count, ceiling and batch size are
untouched. -/
lemma iterateA_success_fields (s : SessionA) (d : ChangesResponse) :
    (iterateA s (.success d)).2.1.numChanges = s.numChanges + resLen d ∧
    (iterateA s (.success d)).2.1.maxChanges = s.maxChanges ∧
    (iterateA s (.success d)).2.1.batchSize = s.batchSize := by
  rcases hres : d.results with _ | l
  · simp [iterateA, hres, resLen]
  · by_cases hl : 0 < l.length
    · simp [iterateA, hres, hl, resLen]
    · have hl0 : l.length = 0 := by omega
      simp [iterateA, hres, hl, resLen, hl0]

/-- A successful iteration of the older variant emits exactly as many
`change` events as the response has records. -/
lemma iterateA_success_countChange (s : SessionA) (d : ChangesResponse) :
    countChange (iterateA s (.success d)).1 = resLen d := by
  rcases hres : d.results with _ | l
  · rcases seqStep_snd_cases s.since d.last_seq with hs | ⟨v, hs⟩ <;>
      simp [iterateA, hres, resLen, changeEvents, countChange, hs, isChange]
  · by_cases hl : 0 < l.length
    · rcases seqStep_snd_cases s.since d.last_seq with hs | ⟨v, hs⟩ <;>
        simp [iterateA, hres, hl, resLen, changeEvents, countChange, hs, isChange,
          List.countP_append, List.countP_map, Function.comp]
    · have hl0 : l.length = 0 := by omega
      rcases seqStep_snd_cases s.since d.last_seq with hs | ⟨v, hs⟩ <;>
        simp [iterateA, hres, hl, resLen, changeEvents, countChange, hs, isChange, hl0]

/-- Continuation decision of a successful iteration of the older variant,
phrased on the pre-iteration state. -/
lemma iterateA_success_decision (s : SessionA) (d : ChangesResponse) :
    (iterateA s (.success d)).2.2 =
      if s.maxChanges = 0 ∨ s.numChanges + resLen d < s.maxChanges
      then DecisionA.go else DecisionA.halt := by
  rcases hres : d.results with _ | l
  · simp [iterateA, hres, resLen, testA]
  · by_cases hl : 0 < l.length
    · simp [iterateA, hres, hl, resLen, testA]
    · have hl0 : l.length = 0 := by omega
      simp [iterateA, hres, hl, resLen, testA, hl0]

/-- A failed iteration of the older variant emits exactly the error event
and leaves the session untouched. -/
lemma iterateA_failure (s : SessionA) (err : Failure) :
    (iterateA s (.failure err)).1 = [Event.error err] ∧
    (iterateA s (.failure err)).2.1 = s := by
  by_cases hf : isFatalA err = true
  · by_cases htr : truthyReason err.reason = true
    · simp [iterateA, hf, htr]
    · simp [iterateA, hf, htr]
  · simp [iterateA, hf]

/-- Unfolding of one step of the older variant's run when the driver
continues. -/
lemma runA_cons_go (s : SessionA) (o : Outcome) (rest : List Outcome)
    (h : (iterateA s o).2.2 = .go) :
    runA s (o :: rest) =
      (mkReqA s :: (runA (iterateA s o).2.1 rest).1,
       (iterateA s o).1 ++ (runA (iterateA s o).2.1 rest).2) := by
  simp only [runA, h]

/-- Unfolding of one step of the older variant's run when the driver halts
or stalls. -/
lemma runA_cons_stop (s : SessionA) (o : Outcome) (rest : List Outcome)
    (h : (iterateA s o).2.2 ≠ .go) :
    runA s (o :: rest) = ([mkReqA s], (iterateA s o).1) := by
  cases hd : (iterateA s o).2.2
  · exact absurd hd h
  · simp only [runA, hd]
  · simp only [runA, hd]

/-- Unfolding of the request states when the driver continues. -/
lemma reqStatesA_cons_go (s : SessionA) (o : Outcome) (rest : List Outcome)
    (h : (iterateA s o).2.2 = .go) :
    reqStatesA s (o :: rest) = s :: reqStatesA (iterateA s o).2.1 rest := by
  simp only [reqStatesA, h]

/-- Unfolding of the request states when the driver halts or stalls. -/
lemma reqStatesA_cons_stop (s : SessionA) (o : Outcome) (rest : List Outcome)
    (h : (iterateA s o).2.2 ≠ .go) :
    reqStatesA s (o :: rest) = [s] := by
  cases hd : (iterateA s o).2.2
  · exact absurd hd h
  · simp only [reqStatesA, hd]
  · simp only [reqStatesA, hd]

/-- Under a limit-honouring server, a successful response received below
the ceiling cannot push the change counter past the ceiling. -/
lemma compliance_bound (s : SessionA) (d : ChangesResponse) (m : Nat)
    (hok : okRespA s (.success d) = true) (hm : s.maxChanges = m)
    (hn : s.numChanges < m) :
    s.numChanges + resLen d ≤ m := by
  rcases hres : d.results with _ | l
  · simp only [resLen, hres]
    omega
  · have hlen : (l.length : Int) ≤ limitA s := by
      simpa [okRespA, hres] using hok
    rw [limitA, if_pos (by omega : s.maxChanges ≠ 0)] at hlen
    have h2 : (l.length : Int) ≤ (s.maxChanges : Int) - (s.numChanges : Int) :=
      le_trans hlen (min_le_right _ _)
    simp only [resLen, hres]
    omega

/-- C7: when a maximum-changes ceiling is configured, against a server
that honours the requested page sizes the cumulative number of `change`
events emitted never exceeds the ceiling, every issued request is issued
at a delivered-count strictly below the ceiling (so no further request is
issued once the count reaches the ceiling), and every issued request's
`limit` query parameter equals the configured batch size clamped to the
remaining allowance. -/
theorem max_changes_ceiling (m : Nat) (script : List Outcome) (s : SessionA)
    (hm : s.maxChanges = m) (_hm0 : m ≠ 0) (hn : s.numChanges < m)
    (hcomp : compliantA s script = true) :
    s.numChanges + countChange (runA s script).2 ≤ m ∧
    ∀ t ∈ reqStatesA s script, t.numChanges < m ∧
      (mkReqA t).limit = min (t.batchSize : Int) ((m : Int) - (t.numChanges : Int)) := by
  induction script generalizing s with
  | nil =>
    refine ⟨?_, ?_⟩
    · simp only [runA, countChange, List.countP_nil]
      omega
    · intro t ht
      simp [reqStatesA] at ht
  | cons o rest ih =>
    rw [compliantA, Bool.and_eq_true] at hcomp
    obtain ⟨hok, hrest⟩ := hcomp
    have hlim : (mkReqA s).limit = min (s.batchSize : Int) ((m : Int) - (s.numChanges : Int)) := by
      show limitA s = _
      rw [limitA, if_pos (by omega : s.maxChanges ≠ 0), hm]
    cases o with
    | success d =>
      obtain ⟨hnum, hmax, _⟩ := iterateA_success_fields s d
      have hcnt := iterateA_success_countChange s d
      have hdec := iterateA_success_decision s d
      have hbound : s.numChanges + resLen d ≤ m := compliance_bound s d m hok hm hn
      by_cases hcont : s.maxChanges = 0 ∨ s.numChanges + resLen d < s.maxChanges
      · have hgo : (iterateA s (.success d)).2.2 = .go := by rw [hdec, if_pos hcont]
        have hn' : (iterateA s (.success d)).2.1.numChanges < m := by
          rw [hnum]
          rcases hcont with h0 | hlt
          · omega
          · omega
        have hm' : (iterateA s (.success d)).2.1.maxChanges = m := by rw [hmax, hm]
        obtain ⟨ih1, ih2⟩ := ih (iterateA s (.success d)).2.1 hm' hn' hrest
        rw [runA_cons_go s _ rest hgo, reqStatesA_cons_go s _ rest hgo]
        refine ⟨?_, ?_⟩
        · show s.numChanges +
            countChange ((iterateA s (.success d)).1 ++
              (runA (iterateA s (.success d)).2.1 rest).2) ≤ m
          rw [countChange_append, hcnt]
          omega
        · intro t ht
          rcases List.mem_cons.mp ht with rfl | ht'
          · exact ⟨hn, hlim⟩
          · exact ih2 t ht'
      · have hstop : (iterateA s (.success d)).2.2 ≠ .go := by
          rw [hdec, if_neg hcont]
          intro hcontra
          exact DecisionA.noConfusion hcontra
        rw [runA_cons_stop s _ rest hstop, reqStatesA_cons_stop s _ rest hstop]
        refine ⟨?_, ?_⟩
        · show s.numChanges + countChange (iterateA s (.success d)).1 ≤ m
          rw [hcnt]
          exact hbound
        · intro t ht
          rcases List.mem_singleton.mp ht with rfl
          exact ⟨hn, hlim⟩
    | failure err =>
      obtain ⟨hev, hst⟩ := iterateA_failure s err
      by_cases hgo : (iterateA s (.failure err)).2.2 = .go
      · have hrest' : compliantA s rest = true := by rwa [hst] at hrest
        obtain ⟨ih1, ih2⟩ := ih s hm hn hrest'
        rw [runA_cons_go s _ rest hgo, reqStatesA_cons_go s _ rest hgo, hst, hev]
        refine ⟨?_, ?_⟩
        · rw [countChange_append]
          have hz : countChange [Event.error err] = 0 := rfl
          omega
        · intro t ht
          rcases List.mem_cons.mp ht with rfl | ht'
          · exact ⟨hn, hlim⟩
          · exact ih2 t ht'
      · rw [runA_cons_stop s _ rest hgo, reqStatesA_cons_stop s _ rest hgo]
        refine ⟨?_, ?_⟩
        · show s.numChanges + countChange (iterateA s (.failure err)).1 ≤ m
          rw [hev]
          have hz : countChange [Event.error err] = 0 := rfl
          omega
        · intro t ht
          rcases List.mem_singleton.mp ht with rfl
          exact ⟨hn, hlim⟩

/-- A started session with batch size 2 and a ceiling of 3 changes. -/
def sA7 : SessionA := { batchSize := 2, maxChanges := 3, started := true }

/-- A compliant two-response script: two records, then the one remaining
record under the ceiling. -/
def scriptA7 : List Outcome :=
  [.success { results := some [{ id := "a1", changes := ["1-1"] }, { id := "a2", changes := ["1-1"] }], last_seq := some "2-0" },
   .success { results := some [{ id := "a3", changes := ["1-1"] }], last_seq := some "3-0" }]

/-- Witness for C7 at a concrete input: with ceiling 3 and batch size 2,
the run delivers at most 3 changes, every request is issued below the
ceiling, and each request's limit is the batch size clamped to the
remaining allowance. -/
theorem max_changes_ceiling_witness :
    (sA7.maxChanges = 3 ∧ (3 : Nat) ≠ 0 ∧ sA7.numChanges < 3 ∧
      compliantA sA7 scriptA7 = true) ∧
    (sA7.numChanges + countChange (runA sA7 scriptA7).2 ≤ 3 ∧
     ∀ t ∈ reqStatesA sA7 scriptA7, t.numChanges < 3 ∧
       (mkReqA t).limit = min (t.batchSize : Int) ((3 : Int) - (t.numChanges : Int))) :=
  ⟨⟨rfl, by decide, by decide, by decide⟩,
    max_changes_ceiling 3 scriptA7 sA7 rfl (by decide) (by decide) (by decide)⟩

end Cloudant
